import Mathlib

/-!
Verification of the couchfs path-resolution and attribute-synthesis core.

The definitions below are a shallow embedding of `src/couchfs/couch.py` and
`src/couchfs/utils.py`.  Python strings are modelled as lists of characters
(`PyStr`); JSON-decoded values as the inductive `JVal`; Python exceptions
escaping an operation as the `PyErr` side of an `Except`.  The external
database client (the `cloudant` account object) is modelled as an `Account`
record of collaborator functions: `get` returns the HTTP response for an
object id, `all_dbs` is the decoded list of database names, and `all_docs`
is the row listing of a database keyed by the value of its `db_name` field.
A `Response` carries the HTTP status code, the raw body text, and the result
of attempting to JSON-decode that text (`none` when decoding raises).
-/

namespace CouchFS

/-- A Python `str`, modelled as its sequence of characters. -/
abbrev PyStr := List Char

/-- Coerce a Lean string literal to the `PyStr` model. -/
def pys (s : String) : PyStr := s.toList

/-- A JSON-decoded Python value: `None`, `bool`, `int`, `str`, `list`, `dict`.
(Floats do not occur in the documents this development quantifies over.) -/
inductive JVal where
  | null
  | bool (b : Bool)
  | num (n : Int)
  | str (s : PyStr)
  | arr (xs : List JVal)
  | obj (fields : List (PyStr × JVal))

/-- Python exceptions that the embedded code can raise. -/
inductive PyErr where
  /-- `raise FuseOSError(e)` with the given errno. -/
  | fuseOSError (errno : Nat)
  /-- A failing `assert` statement. -/
  | assertionError
  /-- Reference to an unbound name (e.g. `EIO`, which is never imported). -/
  | nameError
  /-- `except` clause naming a class that is not a `BaseException`
  (`except JSONDecoder`): Python raises `TypeError` at matching time. -/
  | typeError
  /-- `str.format` with fewer positional arguments than replacement fields. -/
  | indexError
  /-- Attribute lookup on an object lacking it (e.g. `dict.encode`). -/
  | attributeError
deriving DecidableEq

/-- Python truthiness of a decoded JSON value (`bool(v)`). -/
def truthy : JVal → Bool
  | .null => false
  | .bool b => b
  | .num n => n != 0
  | .str s => !s.isEmpty
  | .arr xs => !xs.isEmpty
  | .obj fs => !fs.isEmpty

/-- Python `dict.get(k)`: the value bound to `k`, or `None` when absent. -/
def dictGet (fields : List (PyStr × JVal)) (k : PyStr) : JVal :=
  match fields.find? (fun f => f.1 == k) with
  | some f => f.2
  | none => .null

/-- `utils.is_db`: asserts the argument is a `dict`, then tests that both the
`db_name` and `update_seq` fields are present and truthy. -/
def is_db (doc : JVal) : Except PyErr Bool :=
  match doc with
  | .obj fields =>
      .ok (truthy (dictGet fields (pys "db_name")) &&
           truthy (dictGet fields (pys "update_seq")))
  | _ => .error .assertionError

/-- `utils.is_doc`: asserts the argument is a `dict`, then tests that both the
`_id` and `_rev` fields are present and truthy. -/
def is_doc (doc : JVal) : Except PyErr Bool :=
  match doc with
  | .obj fields =>
      .ok (truthy (dictGet fields (pys "_id")) &&
           truthy (dictGet fields (pys "_rev")))
  | _ => .error .assertionError

/-- The three entity classes of the specification's Entity Classifier. -/
inductive EntityClass where
  | database
  | document
  /-- The spec's Opaque variant: matches neither shape. -/
  | neither
deriving DecidableEq

/-- The Entity Classifier exactly as the call sites compose the two field
tests (`getattr`: `if is_db(doc): ... elif is_doc(doc): ... else: ...`):
database-descriptor test first, then document test, otherwise neither. -/
def classify (v : JVal) : Except PyErr EntityClass :=
  match is_db v with
  | .error e => .error e
  | .ok true => .ok .database
  | .ok false =>
      match is_doc v with
      | .error e => .error e
      | .ok true => .ok .document
      | .ok false => .ok .neither

/-! ### Identity codec: `Couch._get_doc_id` and the `readdir` filename form -/

/-- Index of the last occurrence of `sep` as a contiguous sublist of `s`
(`none` when `sep` never occurs).  Occurrences further right take precedence,
matching the search performed by Python's `str.rpartition`. -/
def findLast (s sep : PyStr) : Option Nat :=
  match s with
  | [] => if sep.isPrefixOf [] then some 0 else none
  | _ :: t =>
      match findLast t sep with
      | some j => some (j + 1)
      | none => if sep.isPrefixOf s then some 0 else none

/-- Whether `sep` occurs anywhere in `s` as a contiguous substring. -/
def containsSub (s sep : PyStr) : Bool :=
  sep.isPrefixOf s ||
    match s with
    | [] => false
    | _ :: t => containsSub t sep

/-- Python `s.rpartition(sep)` for non-empty `sep`: split around the last
occurrence of `sep`, or `('', '', s)` when `sep` does not occur. -/
def rpartition (s sep : PyStr) : PyStr × PyStr × PyStr :=
  match findLast s sep with
  | some i => (s.take i, sep, s.drop (i + sep.length))
  | none => ([], [], s)

/-- `Couch._get_doc_id`: `name_part = path.rpartition('.json')`, then
`name_part[0] if name_part[1] else name_part[2]`. -/
def _get_doc_id (path : PyStr) : PyStr :=
  let np := rpartition path (pys ".json")
  if np.2.1.isEmpty then np.2.2 else np.1

/-- The filename form used by `readdir`: `'{0}.json'.format(id)` — the
document id with the marker suffix appended. -/
def toFilename (id : PyStr) : PyStr := id ++ pys ".json"

/-! ### Content renderer: `json.dumps(doc, indent=2)`

`Couch._get_doc_formated` delegates to the standard library's
`json.dumps(doc, indent=2)`.  The renderer below reproduces its behaviour
for the values of `JVal`: two-space indentation per nesting level,
`", "`-style key separators, and the default `ensure_ascii=True` escaping,
under which every character outside the printable ASCII range `0x20..0x7e`
is emitted as a `\uXXXX` escape (with a surrogate pair for code points
above `0xFFFF`), so the rendered text is pure ASCII. -/

/-- Two spaces of indentation per nesting level. -/
def indentAt (lvl : Nat) : PyStr := List.replicate (2 * lvl) ' '

/-- Lower-case hexadecimal digit for `n % 16`. -/
def hexChar (n : Nat) : Char := (pys "0123456789abcdef").getD (n % 16) '0'

/-- Four-digit hexadecimal rendering of `n` (low 16 bits). -/
def hex4 (n : Nat) : PyStr :=
  [hexChar (n / 4096), hexChar (n / 256), hexChar (n / 16), hexChar n]

/-- JSON escaping of one character under `ensure_ascii=True`. -/
def escChar (c : Char) : PyStr :=
  if c = '"' then pys "\\\""
  else if c = '\\' then pys "\\\\"
  else if c = '\n' then pys "\\n"
  else if c = '\t' then pys "\\t"
  else if c = '\r' then pys "\\r"
  else if c = '\x08' then pys "\\b"
  else if c = '\x0c' then pys "\\f"
  else if 0x20 ≤ c.toNat ∧ c.toNat ≤ 0x7e then [c]
  else if c.toNat < 0x10000 then pys "\\u" ++ hex4 c.toNat
  else
    pys "\\u" ++ hex4 (0xd800 + (c.toNat - 0x10000) / 1024) ++
    pys "\\u" ++ hex4 (0xdc00 + (c.toNat - 0x10000) % 1024)

/-- JSON escaping of a whole string body. -/
def escapeChars : PyStr → PyStr
  | [] => []
  | c :: s => escChar c ++ escapeChars s

/-- A JSON string literal: the escaped body between double quotes. -/
def quoteStr (s : PyStr) : PyStr := '"' :: (escapeChars s ++ ['"'])

/-- Decimal digits of a natural number, structurally recursive on a fuel
bound (`n + 1` steps always suffice, since `n / 10 < n` for `n ≥ 10`). -/
def natCharsAux : Nat → Nat → PyStr
  | 0, _ => []
  | fuel + 1, n =>
      if n < 10 then [hexChar n]
      else natCharsAux fuel (n / 10) ++ [hexChar (n % 10)]

/-- Decimal digits of a natural number. -/
def natChars (n : Nat) : PyStr := natCharsAux (n + 1) n

/-- Python's decimal rendering of an `int`. -/
def intChars (n : Int) : PyStr :=
  if n < 0 then '-' :: natChars n.natAbs else natChars n.toNat

mutual

/-- `json.dumps(v, indent=2)` at nesting level `lvl`. -/
def dumps (lvl : Nat) : JVal → PyStr
  | .null => pys "null"
  | .bool true => pys "true"
  | .bool false => pys "false"
  | .num n => intChars n
  | .str s => quoteStr s
  | .arr [] => pys "[]"
  | .arr (v :: vs) =>
      pys "[\n" ++ indentAt (lvl + 1) ++ dumps (lvl + 1) v ++
      dumpsArr (lvl + 1) vs ++ pys "\n" ++ indentAt lvl ++ pys "]"
  | .obj [] => pys "\x7b\x7d"
  | .obj ((k, w) :: fs) =>
      pys "\x7b\n" ++ indentAt (lvl + 1) ++ quoteStr k ++ pys ": " ++
      dumps (lvl + 1) w ++ dumpsObj (lvl + 1) fs ++ pys "\n" ++
      indentAt lvl ++ pys "\x7d"

/-- Remaining array items, each preceded by a `,` and a fresh line. -/
def dumpsArr (lvl : Nat) : List JVal → PyStr
  | [] => []
  | v :: vs => pys ",\n" ++ indentAt lvl ++ dumps lvl v ++ dumpsArr lvl vs

/-- Remaining object items, each preceded by a `,` and a fresh line. -/
def dumpsObj (lvl : Nat) : List (PyStr × JVal) → PyStr
  | [] => []
  | (k, w) :: fs =>
      pys ",\n" ++ indentAt lvl ++ quoteStr k ++ pys ": " ++
      dumps lvl w ++ dumpsObj lvl fs

end

/-! ### Python `str.encode()`: UTF-8 bytes of a string -/

/-- The UTF-8 byte sequence of one character. -/
def utf8Bytes (c : Char) : List Nat :=
  let n := c.toNat
  if n < 0x80 then [n]
  else if n < 0x800 then [0xc0 + n / 64, 0x80 + n % 64]
  else if n < 0x10000 then
    [0xe0 + n / 4096, 0x80 + n / 64 % 64, 0x80 + n % 64]
  else
    [0xf0 + n / 262144, 0x80 + n / 4096 % 64, 0x80 + n / 64 % 64,
     0x80 + n % 64]

/-- Python `s.encode()`: the UTF-8 bytes of the whole string. -/
def pyEncode : PyStr → List Nat
  | [] => []
  | c :: s => utf8Bytes c ++ pyEncode s

/-! ### The external database client and the filesystem operations -/

/-- An HTTP response from the database client.  `json` is the outcome of
`res.json()`: `some v` when the body text parses as JSON, `none` when the
parser raises. -/
structure Response where
  status_code : Nat
  text : PyStr
  json : Option JVal

/-- One row of `db.all_docs()`; the code only reads its `id` field. -/
structure Row where
  id : PyStr

/-- The `cloudant.Account` collaborator: single-object fetch, decoded list
of all database names, and per-database row listing (the code indexes the
account by the fetched object's `db_name` value). -/
structure Account where
  get : PyStr → Response
  all_dbs : List PyStr
  all_docs : JVal → List Row

/-- `errno.ENOENT`, the only errno the module imports. -/
def ENOENT : Nat := 2

/-- `http.client.OK`. -/
def HTTP_OK : Nat := 200

/-- `http.client.NOT_FOUND`. -/
def HTTP_NOT_FOUND : Nat := 404

/-- `stat.S_IFDIR`. -/
def S_IFDIR : Nat := 0o040000

/-- `stat.S_IFREG`. -/
def S_IFREG : Nat := 0o100000

/-- `Couch._get_doc_body`: `try: doc = res.json() except JSONDecoder: ...`.
When the body parses, the decoded value is returned.  When parsing raises
`JSONDecodeError`, the `except` clause names `json.JSONDecoder` — a class
that is not a `BaseException` — so Python raises `TypeError` at matching
time and the intended raw-text fallback is never reached. -/
def _get_doc_body (res : Response) : Except PyErr JVal :=
  match res.json with
  | some v => .ok v
  | none => .error .typeError

/-- `Couch._get_doc_formated`: asserts the value is a `dict`, then returns
`dumps(doc, indent=2)`. -/
def _get_doc_formated (doc : JVal) : Except PyErr PyStr :=
  match doc with
  | .obj _ => .ok (dumps 0 doc)
  | _ => .error .assertionError

/-- The `check_doc` arm of `Couch._get_doc`:
`if check_doc and not is_doc(body): raise FuseOSError(EIO)`.
`is_doc` itself asserts its argument is a `dict`; and the module imports
only `ENOENT` from `errno`, so the name `EIO` is unbound and the `raise`
statement actually raises `NameError`. -/
def checkDocStep (body : JVal) : Except PyErr Unit :=
  match is_doc body with
  | .error e => .error e
  | .ok true => .ok ()
  | .ok false => .error .nameError

/-- `Couch._get_doc(path, raw, check_doc, formated)`.

Line by line: the opening `assert not (raw and is_doc)` tests the truthiness
of `raw and is_doc` where `is_doc` is the always-truthy imported function,
so it fails exactly when `raw` is true.  The fetch goes to
`self.account.get(self._get_doc_id(path))`.  A 404 status raises
`FuseOSError(ENOENT)`.  Any other non-OK status executes
`self.log.debug('content {0}{1}'.format(res.text[:200]), ...)` whose format
call supplies one positional argument for two replacement fields and
therefore raises `IndexError` before the log record is ever emitted.
Otherwise the body is decoded (`_get_doc_body`), optionally shape-checked
(`checkDocStep`), and optionally formatted; a formatted result is a Python
`str`, embedded here as `JVal.str`. -/
def _get_doc (account : Account) (path : PyStr)
    (raw check_doc formated : Bool) : Except PyErr JVal :=
  if raw then .error .assertionError
  else
    let res := account.get (_get_doc_id path)
    if res.status_code = HTTP_NOT_FOUND then .error (.fuseOSError ENOENT)
    else if res.status_code ≠ HTTP_OK then .error .indexError
    else
      match _get_doc_body res with
      | .error e => .error e
      | .ok body =>
          match (if check_doc then checkDocStep body else .ok ()) with
          | .error e => .error e
          | .ok _ =>
              if formated then
                match _get_doc_formated body with
                | .error e => .error e
                | .ok s => .ok (.str s)
              else .ok body

/-- `Couch.read(path, size, offset)`: fetch the document at `path[1:]` with
`check_doc=True, formated=True`, then return `body.encode()[offset:offset+size]`.
The formatted body is a `str`; on any other value `.encode()` would raise
`AttributeError` (that branch is unreachable when `formated` succeeded). -/
def read (account : Account) (path : PyStr) (size offset : Nat) :
    Except PyErr (List Nat) :=
  match _get_doc account (path.drop 1) false true true with
  | .error e => .error e
  | .ok (.str s) => .ok (((pyEncode s).drop offset).take size)
  | .ok _ => .error .attributeError

/-- `Couch.readdir(path)`: at the root, `('.', '..')` followed by all
database names.  Elsewhere, fetch `path[1:]`; when `is_db(doc)` holds, list
`db.all_docs()` with ids carrying the reserved `_design/` prefix filtered
out and `.json` appended to each surviving id; when it does not hold, the
Python function falls off its end and returns `None`.  A fetched value that
is not a `dict` makes `is_db` raise its `isinstance` assertion. -/
def readdir (account : Account) (path : PyStr) :
    Except PyErr (Option (List PyStr)) :=
  if path = pys "/" then .ok (some (pys "." :: pys ".." :: account.all_dbs))
  else
    match _get_doc account (path.drop 1) false false false with
    | .error e => .error e
    | .ok doc =>
        match is_db doc with
        | .error e => .error e
        | .ok true =>
            match doc with
            | .obj fields =>
                .ok (some (pys "." :: pys ".." ::
                  ((account.all_docs (dictGet fields (pys "db_name"))).filter
                      (fun r => !((pys "_design/").isPrefixOf r.id))).map
                    (fun r => r.id ++ pys ".json")))
            | _ => .error .assertionError
        | .ok false => .ok none

/-- The `stat(2)`-style attribute dictionary returned by `getattr`; the root
branch returns a dictionary without an `st_size` key, hence the `Option`. -/
structure Attrs where
  st_mode : Nat
  st_nlink : Nat
  st_size : Option Nat
deriving DecidableEq

/-- `Couch.getattr(path)`: the root is a directory with link count
`2 + len(all_dbs)` and no size entry.  Any other path is fetched; a
database descriptor becomes a directory of size 4096; a document becomes a
regular file whose size is `len(self._get_doc_formated(doc))` — the
character count of the formatted JSON; anything else a regular file of
size 0. -/
def getattr (account : Account) (path : PyStr) : Except PyErr Attrs :=
  if path = pys "/" then
    .ok { st_mode := S_IFDIR ||| 0o755,
          st_nlink := 2 + account.all_dbs.length, st_size := none }
  else
    match _get_doc account (path.drop 1) false false false with
    | .error e => .error e
    | .ok doc =>
        match is_db doc with
        | .error e => .error e
        | .ok true =>
            .ok { st_mode := S_IFDIR ||| 0o755, st_nlink := 2,
                  st_size := some 4096 }
        | .ok false =>
            match is_doc doc with
            | .error e => .error e
            | .ok true =>
                match _get_doc_formated doc with
                | .error e => .error e
                | .ok s =>
                    .ok { st_mode := S_IFREG ||| 0o755, st_nlink := 1,
                          st_size := some s.length }
            | .ok false =>
                .ok { st_mode := S_IFREG ||| 0o755, st_nlink := 1,
                      st_size := some 0 }

/-! ### The rendered JSON is pure ASCII

Under `ensure_ascii=True`, every character the renderer emits lies below
code point 128, so the character count of the rendered string equals the
byte count of its UTF-8 encoding. -/

/-- Every character of `s` is ASCII. -/
def asciiOnly (s : PyStr) : Prop := ∀ c ∈ s, c.toNat < 128

instance decidableAsciiOnly (s : PyStr) : Decidable (asciiOnly s) :=
  List.decidableBAll _ s

theorem asciiOnly_append {a b : PyStr} (ha : asciiOnly a)
    (hb : asciiOnly b) : asciiOnly (a ++ b) := fun c hc =>
  (List.mem_append.mp hc).elim (ha c) (hb c)

theorem hexChar_lt (n : Nat) : (hexChar n).toNat < 128 := by
  have h16 : n % 16 < 16 := Nat.mod_lt _ (by omega)
  have key : ∀ m < 16, ((pys "0123456789abcdef").getD m '0').toNat < 128 := by
    decide
  simpa [hexChar] using key _ h16

theorem asciiOnly_hex4 (n : Nat) : asciiOnly (hex4 n) := by
  intro c hc
  simp only [hex4, List.mem_cons, List.not_mem_nil, or_false] at hc
  rcases hc with h | h | h | h <;> exact h ▸ hexChar_lt _

theorem asciiOnly_indentAt (lvl : Nat) : asciiOnly (indentAt lvl) := by
  intro c hc
  rw [List.eq_of_mem_replicate hc]
  decide

theorem asciiOnly_natCharsAux (fuel n : Nat) :
    asciiOnly (natCharsAux fuel n) := by
  induction fuel generalizing n with
  | zero => intro c hc; cases hc
  | succ f ih =>
    rw [natCharsAux]
    split
    · intro c hc
      simp only [List.mem_singleton] at hc
      exact hc ▸ hexChar_lt _
    · refine asciiOnly_append (ih _) (fun c hc => ?_)
      simp only [List.mem_singleton] at hc
      exact hc ▸ hexChar_lt _

theorem asciiOnly_natChars (n : Nat) : asciiOnly (natChars n) :=
  asciiOnly_natCharsAux (n + 1) n

theorem asciiOnly_intChars (n : Int) : asciiOnly (intChars n) := by
  unfold intChars
  split
  · intro c hc
    rcases List.mem_cons.mp hc with h | h
    · subst h; decide
    · exact asciiOnly_natChars _ c h
  · exact asciiOnly_natChars _

theorem asciiOnly_escChar (c : Char) : asciiOnly (escChar c) := by
  unfold escChar
  repeat' split
  all_goals first
    | decide
    | (intro d hd; simp only [List.mem_singleton] at hd; subst hd; omega)
    | (repeat' apply asciiOnly_append) <;>
      first
        | decide
        | exact asciiOnly_hex4 _

theorem asciiOnly_escapeChars (s : PyStr) : asciiOnly (escapeChars s) := by
  induction s with
  | nil => intro c hc; cases hc
  | cons c t ih => exact asciiOnly_append (asciiOnly_escChar c) ih

theorem asciiOnly_quoteStr (s : PyStr) : asciiOnly (quoteStr s) := by
  intro c hc
  rcases List.mem_cons.mp hc with h | h
  · subst h; decide
  · rcases List.mem_append.mp h with h2 | h2
    · exact asciiOnly_escapeChars s c h2
    · simp only [List.mem_singleton] at h2; subst h2; decide

mutual

theorem asciiOnly_dumps (lvl : Nat) (v : JVal) : asciiOnly (dumps lvl v) := by
  match v with
  | .null => rw [dumps]; decide
  | .bool true => rw [dumps]; decide
  | .bool false => rw [dumps]; decide
  | .num n => rw [dumps]; exact asciiOnly_intChars n
  | .str s => rw [dumps]; exact asciiOnly_quoteStr s
  | .arr [] => rw [dumps]; decide
  | .arr (w :: ws) =>
      rw [dumps]
      repeat' apply asciiOnly_append
      all_goals first
        | decide
        | exact asciiOnly_indentAt _
        | exact asciiOnly_dumps (lvl + 1) w
        | exact asciiOnly_dumpsArr (lvl + 1) ws
  | .obj [] => rw [dumps]; decide
  | .obj ((k, w) :: fs) =>
      rw [dumps]
      repeat' apply asciiOnly_append
      all_goals first
        | decide
        | exact asciiOnly_indentAt _
        | exact asciiOnly_quoteStr _
        | exact asciiOnly_dumps (lvl + 1) w
        | exact asciiOnly_dumpsObj (lvl + 1) fs

theorem asciiOnly_dumpsArr (lvl : Nat) (vs : List JVal) :
    asciiOnly (dumpsArr lvl vs) := by
  match vs with
  | [] => rw [dumpsArr]; intro c hc; cases hc
  | w :: ws =>
      rw [dumpsArr]
      repeat' apply asciiOnly_append
      all_goals first
        | decide
        | exact asciiOnly_indentAt _
        | exact asciiOnly_dumps lvl w
        | exact asciiOnly_dumpsArr lvl ws

theorem asciiOnly_dumpsObj (lvl : Nat) (fs : List (PyStr × JVal)) :
    asciiOnly (dumpsObj lvl fs) := by
  match fs with
  | [] => rw [dumpsObj]; intro c hc; cases hc
  | (k, w) :: gs =>
      rw [dumpsObj]
      repeat' apply asciiOnly_append
      all_goals first
        | decide
        | exact asciiOnly_indentAt _
        | exact asciiOnly_quoteStr _
        | exact asciiOnly_dumps lvl w
        | exact asciiOnly_dumpsObj lvl gs

end

theorem isPrefixOf_le {sep s : PyStr} (h : sep.isPrefixOf s = true) :
    sep.length ≤ s.length := by
  induction sep generalizing s with
  | nil => simp
  | cons a as ih =>
    cases s with
    | nil => simp [List.isPrefixOf] at h
    | cons b bs =>
      simp only [List.isPrefixOf, Bool.and_eq_true] at h
      exact Nat.succ_le_succ (ih h.2)

theorem isPrefixOf_append_self (a b : PyStr) :
    a.isPrefixOf (a ++ b) = true := by
  induction a with
  | nil => simp [List.isPrefixOf]
  | cons c t ih => simp [List.isPrefixOf, ih]

theorem isPrefixOf_refl (a : PyStr) : a.isPrefixOf a = true := by
  have h := isPrefixOf_append_self a []
  rwa [List.append_nil] at h

theorem findLast_short {s sep : PyStr} (h : s.length < sep.length) :
    findLast s sep = none := by
  induction s with
  | nil =>
    cases sep with
    | nil => simp at h
    | cons c t => simp [findLast, List.isPrefixOf]
  | cons c t ih =>
    have ht : t.length < sep.length := by simp at h; omega
    rw [findLast, ih ht]
    simp only
    split
    · exact absurd (isPrefixOf_le (by assumption)) (Nat.not_le.mpr h)
    · rfl

theorem findLast_append_self (x sep : PyStr) (hsep : sep ≠ []) :
    findLast (x ++ sep) sep = some x.length := by
  induction x with
  | nil =>
    cases sep with
    | nil => exact absurd rfl hsep
    | cons c t =>
      rw [List.nil_append, findLast,
        findLast_short (by simp), if_pos (isPrefixOf_refl (c :: t))]
      rfl
  | cons c x' ih =>
    rw [List.cons_append, findLast, ih]
    rfl

theorem findLast_none_of_not_contains {s sep : PyStr}
    (h : containsSub s sep = false) : findLast s sep = none := by
  induction s with
  | nil =>
    rw [containsSub, Bool.or_eq_false_iff] at h
    rw [findLast, if_neg (by simp [h.1])]
  | cons c t ih =>
    rw [containsSub, Bool.or_eq_false_iff] at h
    rw [findLast, ih h.2, if_neg (by simp [h.1])]

theorem take_length_append (a b : PyStr) : (a ++ b).take a.length = a := by
  induction a with
  | nil => rfl
  | cons c t ih => simp [ih]

/-- The round-trip core: whatever the id, `rpartition` splits the suffixed
filename at the appended marker, because the appended occurrence is the
rightmost one. -/
theorem _get_doc_id_append (x : PyStr) :
    _get_doc_id (x ++ pys ".json") = x := by
  unfold _get_doc_id rpartition
  rw [findLast_append_self x (pys ".json") (by decide)]
  have hne : (pys ".json").isEmpty = false := by decide
  simp [hne, take_length_append]

/-- A filename in which the marker never occurs is returned unchanged. -/
theorem _get_doc_id_unchanged {s : PyStr}
    (h : containsSub s (pys ".json") = false) : _get_doc_id s = s := by
  unfold _get_doc_id rpartition
  rw [findLast_none_of_not_contains h]
  simp

theorem containsSub_cons (c : Char) (t sep : PyStr) :
    containsSub (c :: t) sep =
      (sep.isPrefixOf (c :: t) || containsSub t sep) := rfl

/-- When the marker occurs somewhere, `findLast` finds an occurrence. -/
theorem findLast_isSome_of_contains {s sep : PyStr}
    (h : containsSub s sep = true) : ∃ i, findLast s sep = some i := by
  induction s with
  | nil =>
    rw [containsSub] at h
    simp only [Bool.or_false] at h
    exact ⟨0, by rw [findLast, if_pos h]⟩
  | cons c t ih =>
    rw [containsSub_cons, Bool.or_eq_true] at h
    by_cases hct : containsSub t sep = true
    · obtain ⟨j, hj⟩ := ih hct
      exact ⟨j + 1, by rw [findLast, hj]⟩
    · have hp : sep.isPrefixOf (c :: t) = true := by
        rcases h with h | h
        · exact h
        · exact absurd h hct
      cases hfl : findLast t sep with
      | some j => exact ⟨j + 1, by rw [findLast, hfl]⟩
      | none => exact ⟨0, by rw [findLast, hfl]; simp [hp]⟩

/-- A found occurrence fits inside the string. -/
theorem findLast_bound {s sep : PyStr} {i : Nat}
    (h : findLast s sep = some i) : i + sep.length ≤ s.length := by
  induction s generalizing i with
  | nil =>
    rw [findLast] at h
    by_cases hp : sep.isPrefixOf [] = true
    · rw [if_pos hp] at h
      simp only [Option.some.injEq] at h
      subst h
      have hle := isPrefixOf_le hp
      simp only [List.length_nil] at hle ⊢
      omega
    · rw [if_neg hp] at h
      simp at h
  | cons c t ih =>
    rw [findLast] at h
    cases hfl : findLast t sep with
    | some j =>
      simp only [hfl, Option.some.injEq] at h
      have := ih hfl
      simp only [List.length_cons]
      omega
    | none =>
      simp only [hfl] at h
      by_cases hp : sep.isPrefixOf (c :: t) = true
      · rw [if_pos hp] at h
        simp only [Option.some.injEq] at h
        have hle := isPrefixOf_le hp
        simp only [List.length_cons] at hle ⊢
        omega
      · rw [if_neg hp] at h
        simp at h

/-- When `findLast` locates the marker, `_get_doc_id` keeps the prefix
before it. -/
theorem _get_doc_id_eq_take {s : PyStr} {i : Nat}
    (h : findLast s (pys ".json") = some i) : _get_doc_id s = s.take i := by
  unfold _get_doc_id rpartition
  rw [h]
  have hne : (pys ".json").isEmpty = false := by decide
  simp [hne]

/-- A filename in which the marker occurs anywhere is never returned
unchanged: the split strictly shortens it. -/
theorem _get_doc_id_changed {s : PyStr}
    (h : containsSub s (pys ".json") = true) : _get_doc_id s ≠ s := by
  obtain ⟨i, hi⟩ := findLast_isSome_of_contains h
  have hb := findLast_bound hi
  have hm : (pys ".json").length = 5 := by decide
  rw [_get_doc_id_eq_take hi]
  intro heq
  have hlen := congrArg List.length heq
  rw [List.length_take] at hlen
  omega

theorem not_isPrefixOf_marker {c : Char} (hc : ('.' == c) = false)
    (t : PyStr) : (pys ".json").isPrefixOf (c :: t) = false := by
  show ('.' :: pys "json").isPrefixOf (c :: t) = false
  simp [List.isPrefixOf, hc]

theorem not_containsSub_step {c : Char} {t : PyStr} (hc : ('.' == c) = false)
    (ht : containsSub t (pys ".json") = false) :
    containsSub (c :: t) (pys ".json") = false := by
  rw [containsSub_cons, not_isPrefixOf_marker hc, ht]
  rfl

/-- No proper suffix of the marker starts with `.`, so no occurrence of the
marker can begin inside the tail `json` of a placed marker: the marker does
not occur in `json ++ b` when it does not occur in `b`. -/
theorem containsSub_marker_tail (b : PyStr)
    (hb : containsSub b (pys ".json") = false) :
    containsSub (pys "json" ++ b) (pys ".json") = false := by
  have h1 : containsSub ('n' :: b) (pys ".json") = false :=
    not_containsSub_step (by decide) hb
  have h2 : containsSub ('o' :: 'n' :: b) (pys ".json") = false :=
    not_containsSub_step (by decide) h1
  have h3 : containsSub ('s' :: 'o' :: 'n' :: b) (pys ".json") = false :=
    not_containsSub_step (by decide) h2
  exact not_containsSub_step (by decide) h3

/-- A marker placed at the front, with none in the remainder, is the last
occurrence. -/
theorem findLast_marker_self (b : PyStr)
    (hb : containsSub b (pys ".json") = false) :
    findLast (pys ".json" ++ b) (pys ".json") = some 0 := by
  show findLast ('.' :: (pys "json" ++ b)) (pys ".json") = some 0
  have hp : (pys ".json").isPrefixOf ('.' :: (pys "json" ++ b)) = true :=
    isPrefixOf_append_self (pys ".json") b
  rw [findLast,
    findLast_none_of_not_contains (containsSub_marker_tail b hb)]
  simp [hp]

/-- A marker occurrence with none after it is the one `findLast` finds,
wherever in the string it lies. -/
theorem findLast_last_occurrence (a b : PyStr)
    (hb : containsSub b (pys ".json") = false) :
    findLast (a ++ (pys ".json" ++ b)) (pys ".json") = some a.length := by
  induction a with
  | nil =>
    rw [List.nil_append]
    exact findLast_marker_self b hb
  | cons c a' ih =>
    show findLast (c :: (a' ++ (pys ".json" ++ b))) (pys ".json") =
      some (a'.length + 1)
    rw [findLast, ih]

/-- `_get_doc_id` strips everything from the last marker occurrence onward,
wherever that occurrence lies. -/
theorem _get_doc_id_strip_at (a b : PyStr)
    (hb : containsSub b (pys ".json") = false) :
    _get_doc_id (a ++ pys ".json" ++ b) = a := by
  have h : findLast (a ++ pys ".json" ++ b) (pys ".json") = some a.length := by
    rw [List.append_assoc]
    exact findLast_last_occurrence a b hb
  rw [_get_doc_id_eq_take h, List.append_assoc, take_length_append]

/-! ### Resolution and classification lemmas -/

/-- `is_db` only ever succeeds on a `dict`. -/
theorem is_db_ok_obj {v : JVal} {b : Bool} (h : is_db v = .ok b) :
    ∃ fields, v = .obj fields := by
  cases v with
  | obj fields => exact ⟨fields, rfl⟩
  | null => simp [is_db] at h
  | bool b2 => simp [is_db] at h
  | num n => simp [is_db] at h
  | str s => simp [is_db] at h
  | arr xs => simp [is_db] at h

/-- Successful classification as a Document is exactly: the database test
ran and failed, the document test ran and passed. -/
theorem classify_document_iff (v : JVal) :
    classify v = .ok .document ↔
      is_db v = .ok false ∧ is_doc v = .ok true := by
  unfold classify
  cases hdb : is_db v with
  | error e => simp [hdb]
  | ok b =>
    cases b with
    | true => simp [hdb]
    | false =>
      cases hdc : is_doc v with
      | error e => simp [hdc]
      | ok b2 => cases b2 <;> simp [hdc]

/-- A successful fetch (status `OK`, body decoding to `v`) makes `_get_doc`
continue into its shape-check and formatting steps on `v`. -/
theorem _get_doc_resolved (account : Account) (p : PyStr) (v : JVal)
    (check_doc formated : Bool)
    (hstatus : (account.get (_get_doc_id p)).status_code = HTTP_OK)
    (hjson : (account.get (_get_doc_id p)).json = some v) :
    _get_doc account p false check_doc formated =
      match (if check_doc then checkDocStep v else .ok ()) with
      | .error e => .error e
      | .ok _ =>
          if formated then
            match _get_doc_formated v with
            | .error e => .error e
            | .ok s => .ok (.str s)
          else .ok v := by
  unfold _get_doc _get_doc_body
  simp [hstatus, hjson, HTTP_OK, HTTP_NOT_FOUND]

/-- An unchecked, unformatted `_get_doc` of a successful fetch returns the
decoded body. -/
theorem _get_doc_plain (account : Account) (p : PyStr) (v : JVal)
    (hstatus : (account.get (_get_doc_id p)).status_code = HTTP_OK)
    (hjson : (account.get (_get_doc_id p)).json = some v) :
    _get_doc account p false false false = .ok v := by
  rw [_get_doc_resolved account p v false false hstatus hjson]
  rfl

/-- The `read` configuration of `_get_doc` (`check_doc=True, formated=True`)
returns the formatted rendering when the body passes the document test. -/
theorem _get_doc_checked_formated (account : Account) (p : PyStr)
    (fields : List (PyStr × JVal))
    (hstatus : (account.get (_get_doc_id p)).status_code = HTTP_OK)
    (hjson : (account.get (_get_doc_id p)).json = some (.obj fields))
    (hdc : is_doc (.obj fields) = .ok true) :
    _get_doc account p false true true =
      .ok (.str (dumps 0 (.obj fields))) := by
  rw [_get_doc_resolved account p (.obj fields) true true hstatus hjson]
  simp [checkDocStep, hdc, _get_doc_formated]

/-! ### Concrete fixtures for witnesses and counterexamples -/

/-- A well-formed document body: `{"_id": "doc1", "_rev": "1-abc", "val": 42}`. -/
def docV : JVal :=
  .obj [(pys "_id", .str (pys "doc1")), (pys "_rev", .str (pys "1-abc")),
        (pys "val", .num 42)]

/-- A database descriptor body: `{"db_name": "alpha", "update_seq": "5"}`. -/
def dbV : JVal :=
  .obj [(pys "db_name", .str (pys "alpha")), (pys "update_seq", .str (pys "5"))]

/-- A store whose every fetch succeeds with the document body `docV`. -/
def docAccount : Account :=
  { get := fun _ => { status_code := 200, text := pys "body", json := some docV },
    all_dbs := [pys "alpha"], all_docs := fun _ => [] }

/-- A store whose every fetch succeeds with the database body `dbV`, and
whose `alpha` listing holds a regular document and a design document. -/
def dbAccount : Account :=
  { get := fun _ => { status_code := 200, text := pys "body", json := some dbV },
    all_dbs := [pys "alpha"],
    all_docs := fun _ => [{ id := pys "doc1" }, { id := pys "_design/view1" }] }

/-- A store reporting 404 for every fetch. -/
def err404Account : Account :=
  { get := fun _ => { status_code := 404, text := pys "missing",
                      json := some (.obj []) },
    all_dbs := [], all_docs := fun _ => [] }

/-- A store reporting 500 for every fetch, with an interpretable body. -/
def err500Account : Account :=
  { get := fun _ => { status_code := 500, text := pys "oops",
                      json := some (.obj []) },
    all_dbs := [], all_docs := fun _ => [] }

/-- A 200 response whose body text is not parseable JSON. -/
def rawTextResponse : Response :=
  { status_code := 200, text := pys "hello", json := none }

/-- A store returning `rawTextResponse` for every fetch. -/
def rawTextAccount : Account :=
  { get := fun _ => rawTextResponse, all_dbs := [], all_docs := fun _ => [] }

/-- A store whose fetches decode to a JSON array (a non-`dict` body). -/
def arrBodyAccount : Account :=
  { get := fun _ => { status_code := 200, text := pys "[]",
                      json := some (.arr []) },
    all_dbs := [], all_docs := fun _ => [] }

/-! ### The claims -/

/-- C6: for every document id `x` that does not contain the marker suffix
`.json` as a substring, decoding the encoded filename recovers the id:
`_get_doc_id (toFilename x) = x`. -/
theorem C6_roundtrip (x : PyStr)
    (_h : containsSub x (pys ".json") = false) :
    _get_doc_id (toFilename x) = x :=
  _get_doc_id_append x

theorem C6_roundtrip_witness :
    containsSub (pys "doc1") (pys ".json") = false ∧
    _get_doc_id (toFilename (pys "doc1")) = pys "doc1" :=
  ⟨by decide, C6_roundtrip (pys "doc1") (by decide)⟩

/-- C7 counterexample: `a.jsonb` does not end with the marker suffix, yet
`_get_doc_id` does not return it unchanged — `rpartition` splits at the
last occurrence of `.json` anywhere in the name, yielding `a`. -/
theorem C7_counterexample :
    (pys ".json").isSuffixOf (pys "a.jsonb") = false ∧
    _get_doc_id (pys "a.jsonb") ≠ pys "a.jsonb" ∧
    _get_doc_id (pys "a.jsonb") = pys "a" :=
  ⟨by decide, by decide, by decide⟩

/-- C7 amended: `_get_doc_id` removes everything from the last occurrence
of the marker `.json` onward, wherever that occurrence lies (for any
decomposition `s = a ++ ".json" ++ b` in which the marker does not occur in
`b`, the result is `a`; the trailing-suffix case is `b = []`), and returns
the filename unchanged exactly when the marker occurs nowhere in it as a
substring: a filename containing the marker is never returned unchanged. -/
theorem C7_strip_last_occurrence (s : PyStr) :
    (containsSub s (pys ".json") = false → _get_doc_id s = s) ∧
    (containsSub s (pys ".json") = true → _get_doc_id s ≠ s) ∧
    (∀ a b, s = a ++ pys ".json" ++ b →
      containsSub b (pys ".json") = false → _get_doc_id s = a) :=
  ⟨fun h => _get_doc_id_unchanged h,
   fun h => _get_doc_id_changed h,
   fun a b hs hb => hs ▸ _get_doc_id_strip_at a b hb⟩

theorem C7_strip_witness :
    _get_doc_id (pys "plain") = pys "plain" ∧
    _get_doc_id (pys "ab.jsoncd") ≠ pys "ab.jsoncd" ∧
    _get_doc_id (pys "ab.jsoncd") = pys "ab" ∧
    _get_doc_id (pys "id.json") = pys "id" :=
  ⟨(C7_strip_last_occurrence (pys "plain")).1 (by decide),
   (C7_strip_last_occurrence (pys "ab.jsoncd")).2.1 (by decide),
   (C7_strip_last_occurrence (pys "ab.jsoncd")).2.2 (pys "ab") (pys "cd")
     (by decide) (by decide),
   (C7_strip_last_occurrence (pys "id.json")).2.2 (pys "id") []
     (by decide) (by decide)⟩

/-- C3 counterexample: classification is not total over all values — on a
non-`dict` input the `isinstance` assertion in `is_db` fires, so `classify`
raises `AssertionError` instead of returning `Opaque`. -/
theorem C3_counterexample :
    classify (JVal.num 5) = .error .assertionError ∧
    is_db (JVal.num 5) = .error .assertionError :=
  ⟨rfl, rfl⟩

/-- C3 amended: on structured (`dict`) inputs classification is total and
never raises, returning exactly one of the three variants; every
non-structured value instead raises `AssertionError` rather than being
classified as Opaque. -/
theorem C3_total_on_dicts :
    (∀ fields, ∃ c, classify (JVal.obj fields) = .ok c) ∧
    (∀ v : JVal, (∀ fields, v ≠ JVal.obj fields) →
        classify v = .error .assertionError) := by
  constructor
  · intro fields
    cases hdb : truthy (dictGet fields (pys "db_name")) &&
        truthy (dictGet fields (pys "update_seq")) with
    | true => exact ⟨.database, by simp [classify, is_db, hdb]⟩
    | false =>
      cases hdc : truthy (dictGet fields (pys "_id")) &&
          truthy (dictGet fields (pys "_rev")) with
      | true => exact ⟨.document, by simp [classify, is_db, is_doc, hdb, hdc]⟩
      | false => exact ⟨.neither, by simp [classify, is_db, is_doc, hdb, hdc]⟩
  · intro v hv
    cases v with
    | obj fields => exact absurd rfl (hv fields)
    | null => rfl
    | bool b => rfl
    | num n => rfl
    | str s => rfl
    | arr xs => rfl

theorem C3_total_witness :
    (∃ c, classify (JVal.obj []) = .ok c) ∧
    classify (JVal.bool true) = .error .assertionError :=
  ⟨C3_total_on_dicts.1 [],
   C3_total_on_dicts.2 (JVal.bool true) (fun _ h => JVal.noConfusion h)⟩

/-- C2: reading a path whose entity is a DatabaseDescriptor does fail and
never returns the database metadata as bytes — but it fails with
`NameError`, because `raise FuseOSError(EIO)` references the name `EIO`
which the module never imports (`from errno import ENOENT` only), not with
the claimed `FuseOSError(EIO)`. -/
theorem C2_read_database_raises :
    classify dbV = .ok .database ∧
    read dbAccount (pys "/alpha") 4096 0 = .error .nameError :=
  ⟨rfl, rfl⟩

/-- C4: a 404 status does map to `FuseOSError(ENOENT)` as claimed, but any
other non-success status does not merely log and proceed: the log call
`'content <0><1>'.format(res.text[:200])` supplies one positional argument
for two replacement fields, so resolution aborts with `IndexError`. -/
theorem C4_transport_outcomes :
    _get_doc err404Account (pys "alpha") false false false =
      .error (.fuseOSError ENOENT) ∧
    _get_doc err500Account (pys "alpha") false false false =
      .error .indexError ∧
    getattr err500Account (pys "/alpha") = .error .indexError :=
  ⟨rfl, rfl, rfl⟩

/-- C5: a 200 response whose body is not parseable JSON does not fall back
to the raw text: `except JSONDecoder` names a class that is not an
exception, so Python raises `TypeError` at matching time and the exception
escapes to the caller instead of `res.text` being returned. -/
theorem C5_decode_failure_raises :
    _get_doc_body rawTextResponse = .error .typeError ∧
    _get_doc rawTextAccount (pys "a") false false false = .error .typeError ∧
    _get_doc rawTextAccount (pys "a") false false false ≠
      .ok (.str (pys "hello")) := by
  refine ⟨rfl, rfl, fun h => ?_⟩
  rw [show _get_doc rawTextAccount (pys "a") false false false =
        Except.error PyErr.typeError from rfl] at h
  exact Except.noConfusion h

/-- C9: for a resolved document, `read` returns the empty byte sequence
when the offset is at or beyond the content length, and exactly
`contentLength - offset` bytes when the requested range overshoots the end. -/
theorem C9_read_clipping (account : Account) (path : PyStr) (v : JVal)
    (_hroot : path ≠ pys "/")
    (hstatus : (account.get (_get_doc_id (path.drop 1))).status_code = HTTP_OK)
    (hjson : (account.get (_get_doc_id (path.drop 1))).json = some v)
    (hclass : classify v = .ok .document) (size offset : Nat) :
    (offset ≥ (pyEncode (dumps 0 v)).length →
        read account path size offset = .ok []) ∧
    (offset + size > (pyEncode (dumps 0 v)).length →
        ∃ bs, read account path size offset = .ok bs ∧
          bs.length = (pyEncode (dumps 0 v)).length - offset) := by
  obtain ⟨hdb, hdc⟩ := (classify_document_iff v).mp hclass
  obtain ⟨fields, rfl⟩ := is_db_ok_obj hdb
  have hread : read account path size offset =
      .ok (((pyEncode (dumps 0 (.obj fields))).drop offset).take size) := by
    unfold read
    rw [_get_doc_checked_formated account (path.drop 1) fields hstatus hjson hdc]
  constructor
  · intro hoff
    rw [hread, List.drop_eq_nil_of_le hoff, List.take_nil]
  · intro hover
    refine ⟨_, hread, ?_⟩
    rw [List.length_take, List.length_drop]
    omega

theorem C9_clipping_witness :
    read docAccount (pys "/alpha/doc1.json") 5 1000 = .ok [] ∧
    ∃ bs, read docAccount (pys "/alpha/doc1.json") 1000 10 = .ok bs ∧
      bs.length = (pyEncode (dumps 0 docV)).length - 10 :=
  ⟨(C9_read_clipping docAccount (pys "/alpha/doc1.json") docV
      (by decide) rfl rfl rfl 5 1000).1 (by decide),
   (C9_read_clipping docAccount (pys "/alpha/doc1.json") docV
      (by decide) rfl rfl rfl 1000 10).2 (by decide)⟩

/-- C8: listing a database path never includes an entry derived from an id
with the reserved `_design/` prefix, and every listed name is the `.json`
filename of an id present in the database's row listing (so decoding the
name recovers that id). -/
theorem C8_listing_design_free (account : Account) (path : PyStr)
    (fields : List (PyStr × JVal))
    (hroot : path ≠ pys "/")
    (hstatus : (account.get (_get_doc_id (path.drop 1))).status_code = HTTP_OK)
    (hjson : (account.get (_get_doc_id (path.drop 1))).json =
      some (.obj fields))
    (hdb : is_db (.obj fields) = .ok true) :
    ∃ names,
      readdir account path = .ok (some (pys "." :: pys ".." :: names)) ∧
      ∀ nm ∈ names, ∃ id,
        id ∈ (account.all_docs (dictGet fields (pys "db_name"))).map Row.id ∧
        (pys "_design/").isPrefixOf id = false ∧
        nm = toFilename id ∧ _get_doc_id nm = id := by
  refine ⟨((account.all_docs (dictGet fields (pys "db_name"))).filter
      (fun r => !((pys "_design/").isPrefixOf r.id))).map
      (fun r => r.id ++ pys ".json"), ?_, ?_⟩
  · unfold readdir
    rw [if_neg hroot,
      _get_doc_plain account (path.drop 1) (.obj fields) hstatus hjson]
    simp [hdb]
  · intro nm hnm
    simp only [List.mem_map] at hnm
    obtain ⟨r, hr, rfl⟩ := hnm
    obtain ⟨hrmem, hrp⟩ := List.mem_filter.mp hr
    refine ⟨r.id, List.mem_map_of_mem Row.id hrmem, ?_, rfl,
      _get_doc_id_append r.id⟩
    simpa using hrp

theorem C8_listing_witness :
    ∃ names,
      readdir dbAccount (pys "/alpha") =
        .ok (some (pys "." :: pys ".." :: names)) ∧
      ∀ nm ∈ names, ∃ id,
        id ∈ (dbAccount.all_docs (dictGet
          [(pys "db_name", .str (pys "alpha")),
           (pys "update_seq", .str (pys "5"))] (pys "db_name"))).map Row.id ∧
        (pys "_design/").isPrefixOf id = false ∧
        nm = toFilename id ∧ _get_doc_id nm = id :=
  C8_listing_design_free dbAccount (pys "/alpha")
    [(pys "db_name", .str (pys "alpha")), (pys "update_seq", .str (pys "5"))]
    (by decide) rfl rfl rfl

/-- C10 counterexample: a non-root path whose fetched entity is a JSON
array — hence not a DatabaseDescriptor — makes `readdir` raise the
`isinstance` assertion inside `is_db` instead of returning `None`. -/
theorem C10_counterexample :
    classify (JVal.arr []) ≠ .ok .database ∧
    readdir arrBodyAccount (pys "/x") = .error .assertionError := by
  refine ⟨fun h => ?_, rfl⟩
  rw [show classify (JVal.arr []) = Except.error PyErr.assertionError
    from rfl] at h
  exact Except.noConfusion h

/-- Every value that is not a `dict` makes `is_db` fail its `isinstance`
assertion. -/
theorem is_db_non_obj {v : JVal} (hv : ∀ fields, v ≠ JVal.obj fields) :
    is_db v = .error .assertionError := by
  cases v with
  | obj fields => exact absurd rfl (hv fields)
  | null => rfl
  | bool b => rfl
  | num n => rfl
  | str s => rfl
  | arr xs => rfl

/-- C10 amended: for every non-root path whose fetched entity is a
structured (`dict`) value failing the database-descriptor test, `readdir`
returns no sequence at all (Python `None`); for every fetched entity that
is not a `dict` it instead raises `AssertionError` from the `isinstance`
assertion inside `is_db`. -/
theorem C10_none_for_non_db (account : Account) (path : PyStr)
    (hroot : path ≠ pys "/")
    (hstatus : (account.get (_get_doc_id (path.drop 1))).status_code =
      HTTP_OK) :
    (∀ fields,
      (account.get (_get_doc_id (path.drop 1))).json = some (.obj fields) →
      is_db (.obj fields) = .ok false →
      readdir account path = .ok none) ∧
    (∀ v,
      (account.get (_get_doc_id (path.drop 1))).json = some v →
      (∀ fields, v ≠ JVal.obj fields) →
      readdir account path = .error .assertionError) := by
  constructor
  · intro fields hjson hdb
    unfold readdir
    rw [if_neg hroot,
      _get_doc_plain account (path.drop 1) (.obj fields) hstatus hjson]
    simp [hdb]
  · intro v hjson hv
    unfold readdir
    rw [if_neg hroot,
      _get_doc_plain account (path.drop 1) v hstatus hjson]
    simp [is_db_non_obj hv]

theorem C10_none_witness :
    readdir docAccount (pys "/somedoc") = .ok none ∧
    readdir arrBodyAccount (pys "/x") = .error .assertionError :=
  ⟨(C10_none_for_non_db docAccount (pys "/somedoc") (by decide) rfl).1
     [(pys "_id", .str (pys "doc1")), (pys "_rev", .str (pys "1-abc")),
      (pys "val", .num 42)] rfl rfl,
   (C10_none_for_non_db arrBodyAccount (pys "/x") (by decide) rfl).2
     (JVal.arr []) rfl (fun _ h => JVal.noConfusion h)⟩

end CouchFS
